import Mathlib

/-!
Verification development for the `gosyntect` client library and its CLI.

The Go sources are embedded shallowly:
  * pure data types become Lean structures with the Go field names;
  * the Go `map[int]string` becomes a function `Int → Option String`
    (`none` = key absent; reading an absent key yields the zero value `""`,
    modelled by `mapGet`);
  * `Highlight` is modelled from the point the HTTP round trip returns:
    its input is a `TransportOutcome` (transport failure, or a status code
    together with the body's JSON-decoding outcome).  `json.Marshal` of a
    `Query` (strings and a bool) and `http.NewRequest` cannot fail for the
    values this program builds, so those two early returns are not modelled;
  * Go strings are modelled as their byte sequences, one `Char` per byte
    (all strings appearing in the claims are ASCII);
  * fallible operations return `Option`/`Except`; the unguarded Go string
    slice `code[low:high]` becomes `goSlice`, returning `none` exactly when
    Go would panic with an out-of-range index.
-/

namespace Gosyntect

/-- `Query` from the library: a code highlighting query to the syntect_server. -/
structure Query where
  Extension : String
  Filepath : String
  Theme : String
  Scopify : Bool
  Code : String

/-- `ScopifiedRegion`: a single region of the input code annotated with scopes.
`Offset` and `Length` are Go `int`s, hence `Int`. -/
structure ScopifiedRegion where
  Offset : Int
  Length : Int
  Scopes : List Int

/-- The public `Response` type.  `ScopifiedScopeNames` is Go's
`map[int]string`, modelled as `Int → Option String`. -/
structure Response where
  Data : String
  Plaintext : Bool
  DetectedLanguage : String
  ScopifiedScopeNames : Int → Option String
  ScopifiedRegions : List ScopifiedRegion

/-- The internal wire record `response`: the raw decoded service payload. -/
structure response where
  Data : String
  Plaintext : Bool
  DetectedLanguage : String
  ScopifiedScopeNames : List String
  ScopifiedRegions : List ScopifiedRegion
  Error : String
  Code : String

/-- Insertion `m[k] = v` into a Go `map[int]string`. -/
def mapSet (m : Int → Option String) (k : Int) (v : String) : Int → Option String :=
  fun i => if i = k then some v else m i

/-- Reading `m[k]` from a Go `map[int]string`: a missing key yields the zero
value `""`. -/
def mapGet (m : Int → Option String) (k : Int) : String :=
  (m k).getD ""

/-- The loop in `toSuccessResponse`:
`for index, scopeName := range r.ScopifiedScopeNames { m[index] = scopeName }`,
with `i` the index of the first remaining element. -/
def buildScopeNames : (Int → Option String) → Int → List String → Int → Option String
  | m, _, [] => m
  | m, i, n :: rest => buildScopeNames (mapSet m i n) (i + 1) rest

/-- `(*response).toSuccessResponse`: project the flat wire record into the
public `Response`. -/
def toSuccessResponse (r : response) : Response :=
  { Data := r.Data
    Plaintext := r.Plaintext
    DetectedLanguage := r.DetectedLanguage
    ScopifiedScopeNames := buildScopeNames (fun _ => none) 0 r.ScopifiedScopeNames
    ScopifiedRegions := r.ScopifiedRegions }

/-- `Client`: a client connection to a syntect_server. -/
structure Client where
  syntectServer : String

/-- Go `strings.HasPrefix s pre`. -/
def hasPrefixStr (s pre : String) : Bool :=
  pre.data.isPrefixOf s.data

/-- Go `strings.TrimSuffix s suf`: drop `suf` from the end of `s` when it is
a suffix, otherwise return `s` unchanged. -/
def trimSuffix (s suf : String) : String :=
  if suf.data.isSuffixOf s.data then ⟨s.data.take (s.data.length - suf.data.length)⟩ else s

/-- `(*Client).url`. -/
def url (c : Client) (path : String) : String :=
  c.syntectServer ++ path

/-- `New`: returns a client connection, trimming a trailing "/" from the
configured address. -/
def New (syntectServer : String) : Client :=
  { syntectServer := trimSuffix syntectServer "/" }

/-- The URL targeted by the request `Highlight` builds:
`http.NewRequest("POST", c.url("/"), ...)`. -/
def requestURL (c : Client) : String :=
  url c "/"

/-- Lower-case hexadecimal digit, for `goQuoteChar`. -/
def lowerHexDigit (n : Nat) : Char :=
  if n < 10 then Char.ofNat (48 + n) else Char.ofNat (97 + (n - 10))

/-- One character of Go `strconv` quoting as used by the `%q` format verb,
for ASCII content: the double quote and backslash are backslash-escaped, the
named control escapes are produced, printable ASCII passes through, and any
other byte becomes a `\xhh` escape. -/
def goQuoteChar (c : Char) : List Char :=
  if c = '"' then ['\\', '"']
  else if c = '\\' then ['\\', '\\']
  else if c.toNat = 7 then ['\\', 'a']
  else if c.toNat = 8 then ['\\', 'b']
  else if c.toNat = 12 then ['\\', 'f']
  else if c = '\n' then ['\\', 'n']
  else if c = '\r' then ['\\', 'r']
  else if c = '\t' then ['\\', 't']
  else if c.toNat = 11 then ['\\', 'v']
  else if 32 ≤ c.toNat ∧ c.toNat < 127 then [c]
  else ['\\', 'x', lowerHexDigit (c.toNat / 16 % 16), lowerHexDigit (c.toNat % 16)]

/-- Go `%q` applied to a string: the double-quoted, escaped form. -/
def goQuote (s : String) : String :=
  ⟨'"' :: s.data.foldr (fun c acc => goQuoteChar c ++ acc) ['"']⟩

/-- The message of `errors.Wrap(inner, outer)` from github.com/pkg/errors:
`outer ++ ": " ++ inner`. -/
def wrapErr (outer inner : String) : String :=
  outer ++ ": " ++ inner

/-- The kind of error `Highlight` returns (which sentinel / constructor the
returned error wraps). -/
inductive ErrKind where
  | transportErr
  | requestTooLarge
  | protocolErr
  | invalidTheme
  | internalError
  | panicErr
  | unknownCode
deriving DecidableEq

/-- An error returned by `Highlight`: its kind and its rendered message
(the string `err.Error()` would produce). -/
structure HErr where
  kind : ErrKind
  msg : String

/-- Outcome of JSON-decoding the response body. -/
inductive BodyDecode where
  | undecodable (msg : String)
  | decoded (r : response)

/-- Outcome of the HTTP round trip performed by `client.Do(req)`. -/
inductive TransportOutcome where
  | failed (msg : String)
  | responded (status : Nat) (body : BodyDecode)

/-- `(*Client).Highlight`, from the point the transport returns: the 400
check, JSON decoding, the error-code switch, and the success projection. -/
def Highlight (c : Client) (t : TransportOutcome) : Except HErr Response :=
  match t with
  | .failed msg =>
      .error ⟨.transportErr, wrapErr ("making request to " ++ url c "/") msg⟩
  | .responded status body =>
      if status = 400 then
        .error ⟨.requestTooLarge, "request too large"⟩
      else
        match body with
        | .undecodable msg =>
            .error ⟨.protocolErr, wrapErr ("decoding JSON response from " ++ url c "/") msg⟩
        | .decoded r =>
            if r.Error ≠ "" then
              let ek : ErrKind × String :=
                if r.Code = "invalid_theme" then (.invalidTheme, "invalid theme")
                else if r.Code = "resource_not_found" then
                  (.internalError, "gosyntect internal error: resource_not_found")
                else if r.Code = "panic" then (.panicErr, "syntect panic while highlighting")
                else (.unknownCode,
                  "unknown error=" ++ goQuote r.Error ++ " code=" ++ goQuote r.Code)
              .error ⟨ek.1, wrapErr c.syntectServer ek.2⟩
            else
              .ok (toSuccessResponse r)

/-- `sub` occurs as a contiguous substring of `s`. -/
def occursIn (sub s : String) : Prop :=
  ∃ a b : String, s = a ++ sub ++ b

/-! ## The command-line adapter (src/cmd/gosyntect/main.go) -/

/-- Outcome of one CLI invocation.  `usage` prints the flag help to stderr
and exits with status 2 and no other output; `fatal msg` is `log.Fatal`
(prints `msg`, exits with status 1); `output lines` is a normal exit after
printing `lines`; `panicked` is a Go runtime panic (string index out of
range) — lines printed before the panic are not tracked (no claim depends
on them). -/
inductive CliOutcome where
  | usage
  | fatal (msg : String)
  | output (lines : List String)
  | panicked
deriving DecidableEq

/-- Process exit status of each CLI outcome. -/
def CliOutcome.exitCode : CliOutcome → Nat
  | .usage => 2
  | .fatal _ => 1
  | .output _ => 0
  | .panicked => 2

/-- Go `path/filepath.Base` for slash-separated paths: `"."` for the empty
path, trailing slashes dropped, then the last path element (or `"/"` when
nothing remains). -/
def filepathBase (path : String) : String :=
  if path = "" then "."
  else
    let cs := path.data.reverse.dropWhile (fun c => c = '/')
    if cs = [] then "/"
    else ⟨(cs.takeWhile (fun c => c ≠ '/')).reverse⟩

/-- Go `strings.Join xs sep`. -/
def strJoin (xs : List String) (sep : String) : String :=
  match xs with
  | [] => ""
  | x :: rest => rest.foldl (fun acc y => acc ++ sep ++ y) x

/-- Go string slicing `s[low:high]` by byte index: `none` exactly when Go
panics with a slice-bounds-out-of-range error. -/
def goSlice (s : String) (low high : Int) : Option String :=
  if 0 ≤ low ∧ low ≤ high ∧ high ≤ (s.data.length : Int) then
    some ⟨(s.data.drop low.toNat).take (high - low).toNat⟩
  else none

/-- One iteration of the CLI's region loop: resolve the region's scope
indices through the map, slice the submitted code at
`[Offset, Offset+Length)`, and render
`fmt.Printf("%q - %s\n", substring, strings.Join(scopes, " "))`
(without the trailing newline).  `none` models the Go panic on an
out-of-range slice. -/
def renderRegion (code : String) (m : Int → Option String) (reg : ScopifiedRegion) :
    Option String :=
  match goSlice code reg.Offset (reg.Offset + reg.Length) with
  | none => none
  | some sub =>
      some (goQuote sub ++ " - " ++ strJoin (reg.Scopes.map (fun i => mapGet m i)) " ")

/-- The CLI's region loop over all regions, in order. -/
def renderRegions (code : String) (m : Int → Option String) :
    List ScopifiedRegion → Option (List String)
  | [] => some []
  | reg :: rest =>
      match renderRegion code m reg with
      | none => none
      | some line =>
          match renderRegions code m rest with
          | none => none
          | some lines => some (line :: lines)

/-- The CLI's output step: `if resp.Data != ""` print the HTML payload,
otherwise run the region loop. -/
def renderOutput (code : String) (resp : Response) : Option (List String) :=
  if resp.Data ≠ "" then some [resp.Data]
  else renderRegions code resp.ScopifiedScopeNames resp.ScopifiedRegions

/-- The theme-validation and file-reading part of `main`: build the `Query`
from the positional arguments (`""` for an absent argument, as `flag.Arg`
returns), reading the file through `readFile`. -/
def readQuery (scopify : Bool) (args : List String)
    (readFile : String → Except String String) : Except String Query :=
  if scopify = false then
    if args.getD 1 "" = "" then
      .error "theme argument is required (e.x. 'InspiredGitHub')"
    else
      match readFile (args.getD 2 "") with
      | .error e => .error e
      | .ok code =>
          .ok { Extension := "", Filepath := args.getD 2 "", Theme := args.getD 1 "",
                Scopify := scopify, Code := code }
  else
    match readFile (args.getD 1 "") with
    | .error e => .error e
    | .ok code =>
        .ok { Extension := "", Filepath := args.getD 1 "", Theme := "",
              Scopify := scopify, Code := code }

/-- `main` from src/cmd/gosyntect/main.go, parameterized by the `-scopify`
flag, the positional arguments, the file system read, and the service call
(`cl.Highlight` applied to the built query). -/
def cliMain (scopify : Bool) (args : List String)
    (readFile : String → Except String String)
    (service : Query → Except HErr Response) : CliOutcome :=
  if (!scopify && args.length != 3) || (scopify && args.length != 2) then
    .usage
  else if !(hasPrefixStr (args.getD 0 "") "http://" || hasPrefixStr (args.getD 0 "") "https://") then
    .fatal "expected server to have http:// or https:// prefix"
  else
    match readQuery scopify args readFile with
    | .error msg => .fatal msg
    | .ok q =>
        match service { q with Filepath := filepathBase q.Filepath } with
        | .error e => .fatal e.msg
        | .ok resp =>
            match renderOutput q.Code resp with
            | some lines => .output lines
            | none => .panicked

/-! ## Concrete records used by witnesses and counterexamples -/

/-- The round-trip example from the spec: scope names
`["comment","string","keyword"]` and one region `{0, 3, [1]}`. -/
def exampleWire : response :=
  { Data := ""
    Plaintext := false
    DetectedLanguage := "Go"
    ScopifiedScopeNames := ["comment", "string", "keyword"]
    ScopifiedRegions := [⟨0, 3, [1]⟩]
    Error := ""
    Code := "" }

/-- A wire record carrying an error with a case-mismatched code. -/
def wireCased : response :=
  { Data := ""
    Plaintext := false
    DetectedLanguage := ""
    ScopifiedScopeNames := []
    ScopifiedRegions := []
    Error := "boom"
    Code := "Invalid_Theme" }

/-! ## Helper lemmas -/

/-- Characterization of the scope-name insertion loop: starting from map `m`
and index `i`, the resulting map holds `names` on `[i, i + names.length)` and
is `m` elsewhere. -/
theorem buildScopeNames_apply (names : List String) (m : Int → Option String) (i k : Int) :
    buildScopeNames m i names k =
      if i ≤ k ∧ k < i + names.length then names[(k - i).toNat]? else m k := by
  induction names generalizing m i with
  | nil =>
      rw [buildScopeNames, if_neg]
      simp only [List.length_nil]
      omega
  | cons n rest ih =>
      rw [buildScopeNames, ih]
      by_cases h1 : i + 1 ≤ k ∧ k < i + 1 + rest.length
      · rw [if_pos h1, if_pos (by simp only [List.length_cons]; push_cast at h1 ⊢; omega)]
        have hk : (k - i).toNat = (k - (i + 1)).toNat + 1 := by omega
        rw [hk, List.getElem?_cons_succ]
      · rw [if_neg h1]
        by_cases h2 : k = i
        · subst h2
          rw [if_pos (by simp only [List.length_cons]; push_cast; omega)]
          have h0 : (k - k).toNat = 0 := by omega
          rw [h0]
          simp [mapSet]
        · rw [if_neg (by simp only [List.length_cons]; push_cast at h1 ⊢; omega)]
          simp [mapSet, h2]

/-- The map built by `toSuccessResponse` holds exactly the positional entries
of the wire list. -/
theorem toSuccessResponse_scopeNames (r : response) (k : Int) :
    (toSuccessResponse r).ScopifiedScopeNames k =
      if 0 ≤ k ∧ k < r.ScopifiedScopeNames.length then r.ScopifiedScopeNames[k.toNat]?
      else none := by
  show buildScopeNames (fun _ => none) 0 r.ScopifiedScopeNames k = _
  rw [buildScopeNames_apply]
  by_cases h : 0 ≤ k ∧ k < (r.ScopifiedScopeNames.length : Int)
  · rw [if_pos (by omega), if_pos h]
    have : (k - 0).toNat = k.toNat := by omega
    rw [this]
  · rw [if_neg (by omega), if_neg h]

/-- Reading the built map with the Go zero-value default agrees with
positional lookup in the wire list (with `""` out of range). -/
theorem mapGet_toSuccessResponse (r : response) (k : Int) :
    mapGet (toSuccessResponse r).ScopifiedScopeNames k =
      if 0 ≤ k then r.ScopifiedScopeNames.getD k.toNat "" else "" := by
  rw [mapGet, toSuccessResponse_scopeNames]
  by_cases h : 0 ≤ k ∧ k < (r.ScopifiedScopeNames.length : Int)
  · rw [if_pos h, if_pos h.1, List.getD_eq_getElem?_getD]
  · rw [if_neg h]
    by_cases h0 : 0 ≤ k
    · rw [if_pos h0, List.getD_eq_getElem?_getD, List.getElem?_eq_none (by omega)]
    · rw [if_neg h0]
      rfl

/-- Exhibiting an occurrence of `sub` in `s` from a decomposition of the
underlying character data. -/
theorem occursIn_parts (sub a b s : String) (h : s.data = a.data ++ sub.data ++ b.data) :
    occursIn sub s :=
  ⟨a, b, String.ext (by rw [h]; simp [String.data_append])⟩

/-- `errors.Wrap(err, outer)` mentions `outer`. -/
theorem occursIn_wrapErr (outer inner : String) : occursIn outer (wrapErr outer inner) :=
  occursIn_parts _ "" (": " ++ inner) _ (by simp [wrapErr, String.data_append])

/-- A wrapped message whose outer text embeds `q` mentions `q`. -/
theorem occursIn_wrapErr_mid (x q y z : String) : occursIn q (wrapErr (x ++ (q ++ y)) z) :=
  occursIn_parts _ x (y ++ (": " ++ z)) _ (by simp [wrapErr, String.data_append])

/-- Every character of an occurring substring is a character of the string. -/
theorem char_mem_of_occursIn (sub s : String) (h : occursIn sub s) (ch : Char)
    (hc : ch ∈ sub.data) : ch ∈ s.data := by
  obtain ⟨a, b, rfl⟩ := h
  simp only [String.data_append, List.mem_append]
  exact Or.inl (Or.inr hc)

/-- The character data of a Go-quoted string starts with a double quote. -/
theorem goQuote_data (s : String) :
    (goQuote s).data = '"' :: s.data.foldr (fun c acc => goQuoteChar c ++ acc) ['"'] :=
  rfl

/-- A rendered region line is never the empty string. -/
theorem renderRegion_ne_empty (code : String) (m : Int → Option String)
    (reg : ScopifiedRegion) (line : String)
    (h : renderRegion code m reg = some line) : line ≠ "" := by
  rw [renderRegion] at h
  cases hs : goSlice code reg.Offset (reg.Offset + reg.Length) with
  | none => rw [hs] at h; exact absurd h (by simp)
  | some sub =>
      rw [hs] at h
      have hl := Option.some.inj h
      intro h0
      rw [h0] at hl
      have hdata := congrArg String.data hl
      rw [String.data_append, String.data_append, goQuote_data] at hdata
      simp at hdata

/-- When every region renders, the region loop returns one line per region,
in order. -/
theorem renderRegions_all_some (code : String) (m : Int → Option String)
    (f : ScopifiedRegion → String) :
    ∀ regs : List ScopifiedRegion,
      (∀ reg ∈ regs, renderRegion code m reg = some (f reg)) →
      renderRegions code m regs = some (regs.map f)
  | [], _ => rfl
  | reg :: rest, h => by
      rw [renderRegions, h reg (List.mem_cons_self reg rest),
        renderRegions_all_some code m f rest (fun r hr => h r (List.mem_cons_of_mem _ hr))]
      rfl

/-- The region loop never outputs an empty line. -/
theorem renderRegions_no_empty_line (code : String) (m : Int → Option String)
    (regs : List ScopifiedRegion) (lines : List String)
    (h : renderRegions code m regs = some lines) : "" ∉ lines := by
  induction regs generalizing lines with
  | nil =>
      rw [renderRegions] at h
      rw [← Option.some.inj h]
      simp
  | cons reg rest ih =>
      rw [renderRegions] at h
      cases hr : renderRegion code m reg with
      | none => rw [hr] at h; exact absurd h (by simp)
      | some line =>
          rw [hr] at h
          cases hrs : renderRegions code m rest with
          | none => rw [hrs] at h; exact absurd h (by simp)
          | some ls =>
              rw [hrs] at h
              rw [← Option.some.inj h]
              intro hmem
              rcases List.mem_cons.mp hmem with h1 | h2
              · exact renderRegion_ne_empty code m reg line hr h1.symm
              · exact ih ls hrs h2

/-! ## Claim theorems -/

/-- Claim C1: for every service response with HTTP status other than 400
whose body decodes as the wire record, `Highlight` fails if and only if the
record's `Error` field is non-empty; when it fails, the `Code` field selects
the error kind by exact string match: `"invalid_theme"` yields the
invalid-theme error, `"resource_not_found"` yields the internal error,
`"panic"` yields the panic error, and any other code yields the generic
error embedding the literal error text and code. -/
theorem highlight_error_code_dispatch (c : Client) (status : Nat) (r : response)
    (hs : status ≠ 400) :
    (Highlight c (.responded status (.decoded r)) = .ok (toSuccessResponse r) ↔
      r.Error = "") ∧
    ((∃ e, Highlight c (.responded status (.decoded r)) = .error e) ↔ r.Error ≠ "") ∧
    (r.Error ≠ "" →
      (r.Code = "invalid_theme" →
        Highlight c (.responded status (.decoded r)) =
          .error ⟨.invalidTheme, wrapErr c.syntectServer "invalid theme"⟩) ∧
      (r.Code = "resource_not_found" →
        Highlight c (.responded status (.decoded r)) =
          .error ⟨.internalError,
            wrapErr c.syntectServer "gosyntect internal error: resource_not_found"⟩) ∧
      (r.Code = "panic" →
        Highlight c (.responded status (.decoded r)) =
          .error ⟨.panicErr, wrapErr c.syntectServer "syntect panic while highlighting"⟩) ∧
      (r.Code ≠ "invalid_theme" → r.Code ≠ "resource_not_found" → r.Code ≠ "panic" →
        Highlight c (.responded status (.decoded r)) =
          .error ⟨.unknownCode,
            wrapErr c.syntectServer
              ("unknown error=" ++ goQuote r.Error ++ " code=" ++ goQuote r.Code)⟩)) := by
  by_cases hE : r.Error = ""
  · simp [Highlight, hs, hE]
  · refine ⟨by simp [Highlight, hs, hE], by simp [Highlight, hs, hE], fun _ => ⟨?_, ?_, ?_, ?_⟩⟩
    · intro hc; simp [Highlight, hs, hE, hc]
    · intro hc; simp [Highlight, hs, hE, hc]
    · intro hc; simp [Highlight, hs, hE, hc]
    · intro h1 h2 h3; simp [Highlight, hs, hE, h1, h2, h3]

/-- Witness for C1: a 200 response whose body carries `Error="boom"` and the
case-mismatched code `"Invalid_Theme"` falls through to the generic
unknown-code error embedding both quoted strings. -/
theorem highlight_error_code_dispatch_witness :
    (200 : Nat) ≠ 400 ∧ wireCased.Error ≠ "" ∧ wireCased.Code ≠ "invalid_theme" ∧
    Highlight ⟨"http://h"⟩ (.responded 200 (.decoded wireCased)) =
      .error ⟨.unknownCode,
        wrapErr "http://h"
          ("unknown error=" ++ goQuote wireCased.Error ++ " code=" ++
            goQuote wireCased.Code)⟩ :=
  ⟨by decide, by decide, by decide,
    (((highlight_error_code_dispatch ⟨"http://h"⟩ 200 wireCased (by decide)).2.2
        (by decide)).2.2.2) (by decide) (by decide) (by decide)⟩

/-- Claim C2: for every transport response with HTTP status 400, `Highlight`
returns the request-too-large error immediately and identically for every
possible body — undecodable or well-formed JSON with any error code — so no
body decoding takes place. -/
theorem highlight_status400_request_too_large (c : Client) (body : BodyDecode) :
    Highlight c (.responded 400 body) = .error ⟨.requestTooLarge, "request too large"⟩ :=
  rfl

/-- Claim C3: the projection into the public `Response` passes `Data`,
`Plaintext`, `DetectedLanguage` and `ScopifiedRegions` through unchanged,
and its scope-name map holds exactly the keys `0 ≤ k < length` of the wire
list, each mapped to the k-th entry. -/
theorem toSuccessResponse_projection (r : response) (k : Int) :
    (toSuccessResponse r).Data = r.Data ∧
    (toSuccessResponse r).Plaintext = r.Plaintext ∧
    (toSuccessResponse r).DetectedLanguage = r.DetectedLanguage ∧
    (toSuccessResponse r).ScopifiedRegions = r.ScopifiedRegions ∧
    (toSuccessResponse r).ScopifiedScopeNames k =
      (if 0 ≤ k ∧ k < r.ScopifiedScopeNames.length then r.ScopifiedScopeNames[k.toNat]?
       else none) :=
  ⟨rfl, rfl, rfl, rfl, toSuccessResponse_scopeNames r k⟩

/-- Counterexample for C4: on HTTP status 400 `Highlight` returns the bare
`request too large` sentinel, and the configured service address does not
occur anywhere in that error — even when the body is well-formed JSON with a
different code. -/
theorem request_too_large_omits_address :
    Highlight ⟨"http://localhost:9238"⟩ (.responded 400 (.decoded wireCased)) =
      .error ⟨.requestTooLarge, "request too large"⟩ ∧
    ¬ occursIn "http://localhost:9238" "request too large" := by
  refine ⟨rfl, fun h => ?_⟩
  have hm := char_mem_of_occursIn _ _ h ':' (by decide)
  revert hm
  decide

/-- Claim C4 (amended): every error returned by `Highlight` — the protocol
(decode-failure) error, the transport error, and each of the four error-code
cases — names the configured service address in its message, except the
request-too-large error returned on HTTP status 400, whose message is the
bare "request too large" and does not name the address. -/
theorem highlight_errors_name_address (c : Client) (t : TransportOutcome) (e : HErr)
    (h : Highlight c t = .error e) :
    (e.kind = .requestTooLarge ∧ e.msg = "request too large") ∨
      occursIn c.syntectServer e.msg := by
  match t with
  | .failed m =>
      have he := Except.error.inj h
      rw [← he]
      right
      exact occursIn_wrapErr_mid "making request to " c.syntectServer "/" m
  | .responded status body =>
      by_cases hs : status = 400
      · subst hs
        have he := Except.error.inj h
        rw [← he]
        exact Or.inl ⟨rfl, rfl⟩
      · match body with
        | .undecodable m =>
            simp only [Highlight, if_neg hs] at h
            have he := Except.error.inj h
            rw [← he]
            right
            exact occursIn_wrapErr_mid "decoding JSON response from " c.syntectServer "/" m
        | .decoded r =>
            simp only [Highlight, if_neg hs] at h
            by_cases hE : r.Error = ""
            · rw [if_neg (by simp [hE])] at h
              exact absurd h (by simp)
            · rw [if_pos hE] at h
              have he := Except.error.inj h
              rw [← he]
              right
              exact occursIn_wrapErr c.syntectServer _

/-- Witness for C4 (amended): a concrete transport failure against address
`http://h` produces an error whose message embeds that address. -/
theorem highlight_errors_name_address_witness :
    Highlight ⟨"http://h"⟩ (.failed "net down") =
      .error ⟨.transportErr, wrapErr ("making request to " ++ url ⟨"http://h"⟩ "/") "net down"⟩ ∧
    ((ErrKind.transportErr = ErrKind.requestTooLarge ∧
        wrapErr ("making request to " ++ url ⟨"http://h"⟩ "/") "net down" =
          "request too large") ∨
      occursIn "http://h"
        (wrapErr ("making request to " ++ url ⟨"http://h"⟩ "/") "net down")) :=
  ⟨rfl, highlight_errors_name_address ⟨"http://h"⟩ (.failed "net down") _ rfl⟩

/-- Claim C5: `New` stores the configured base address with its trailing
path separator stripped, and the request targets exactly that stored address
followed by "/"; in particular both `http://localhost:9238` and
`http://localhost:9238/` lead to requests against exactly
`http://localhost:9238/`. -/
theorem new_trims_slash_and_targets_root :
    (∀ s : String, (New s).syntectServer = trimSuffix s "/" ∧
      requestURL (New s) = trimSuffix s "/" ++ "/") ∧
    requestURL (New "http://localhost:9238") = "http://localhost:9238/" ∧
    requestURL (New "http://localhost:9238/") = "http://localhost:9238/" :=
  ⟨fun _ => ⟨rfl, rfl⟩, by decide, by decide⟩

/-- Counterexample for C6: on the spec's own round-trip instance (scope
names `["comment","string","keyword"]`, region `{0,3,[1]}`, code `"// x"`)
the CLI renders the quoted substring, then the separator " - ", then the
scope name — not the quoted substring directly followed by the space-joined
scope names. -/
theorem scopify_line_separator_counterexample :
    renderRegion "// x" (toSuccessResponse exampleWire).ScopifiedScopeNames ⟨0, 3, [1]⟩ =
      some ("\"// \"" ++ " - " ++ "string") ∧
    ("\"// \"" ++ " - " ++ "string" : String) ≠ "\"// \"" ++ " " ++ "string" := by
  decide

/-- Claim C6 (amended): for every scopify response (empty `Data`, all regions
in bounds), the CLI prints one line per region in the service-provided
order, each line being the Go-quoted substring of the submitted code at the
region's byte offset and length, then the separator " - ", then the region's
scope indices resolved to names by ordinal position and joined by spaces. -/
theorem scopify_render_lines (code : String) (r : response)
    (hdata : r.Data = "")
    (hbounds : ∀ reg ∈ r.ScopifiedRegions,
      0 ≤ reg.Offset ∧ 0 ≤ reg.Length ∧ reg.Offset + reg.Length ≤ (code.data.length : Int)) :
    renderOutput code (toSuccessResponse r) =
      some (r.ScopifiedRegions.map (fun reg =>
        goQuote ⟨(code.data.drop reg.Offset.toNat).take reg.Length.toNat⟩ ++ " - " ++
          strJoin (reg.Scopes.map (fun i =>
            if 0 ≤ i then r.ScopifiedScopeNames.getD i.toNat "" else "")) " ")) := by
  have hfun : (fun i => mapGet (toSuccessResponse r).ScopifiedScopeNames i) =
      (fun i : Int => if 0 ≤ i then r.ScopifiedScopeNames.getD i.toNat "" else "") :=
    funext (mapGet_toSuccessResponse r)
  rw [renderOutput, if_neg (by simp [toSuccessResponse, hdata])]
  show renderRegions code (toSuccessResponse r).ScopifiedScopeNames r.ScopifiedRegions = _
  apply renderRegions_all_some
  intro reg hreg
  obtain ⟨h1, h2, h3⟩ := hbounds reg hreg
  have hslice : goSlice code reg.Offset (reg.Offset + reg.Length) =
      some ⟨(code.data.drop reg.Offset.toNat).take reg.Length.toNat⟩ := by
    rw [goSlice, if_pos ⟨h1, by omega, h3⟩, add_sub_cancel_left]
  rw [renderRegion, hslice, hfun]

/-- Witness for C6 (amended): the spec's round-trip instance renders the
single line `"// " - string`. -/
theorem scopify_render_lines_witness :
    exampleWire.Data = "" ∧
    renderOutput "// x" (toSuccessResponse exampleWire) = some ["\"// \" - string"] :=
  ⟨rfl, (scopify_render_lines "// x" exampleWire rfl (by decide)).trans (by decide)⟩

/-- Claim C7: the CLI proceeds past argument parsing for exactly the two
accepted shapes — three positional arguments without `-scopify`, two with it
— and on any other argument count the outcome is the usage exit, which
carries exit status 2 and no output. -/
theorem cli_arg_shape_usage_exit (scopify : Bool) (args : List String)
    (readFile : String → Except String String) (service : Query → Except HErr Response) :
    (cliMain scopify args readFile service = .usage ↔
      ¬((scopify = false ∧ args.length = 3) ∨ (scopify = true ∧ args.length = 2))) ∧
    CliOutcome.exitCode .usage = 2 := by
  refine ⟨?_, rfl⟩
  by_cases hg : ((!scopify && args.length != 3) || (scopify && args.length != 2)) = true
  · rw [cliMain, if_pos hg]
    simp only [true_iff]
    cases scopify <;> simp_all
  · rw [cliMain, if_neg hg]
    have hshape : (scopify = false ∧ args.length = 3) ∨ (scopify = true ∧ args.length = 2) := by
      cases scopify <;> simp_all
    refine iff_of_false (fun h => ?_) (not_not_intro hshape)
    split at h
    · exact CliOutcome.noConfusion h
    · split at h
      · exact CliOutcome.noConfusion h
      · split at h
        · exact CliOutcome.noConfusion h
        · split at h
          · exact CliOutcome.noConfusion h
          · exact CliOutcome.noConfusion h

/-- Claim C8: with an accepted argument shape, the CLI aborts via
`log.Fatal` (exit status 1, hence non-zero; independent of the service, so
before any request) whenever the server argument has neither the `http://`
nor the `https://` prefix, and, in highlight mode with a valid server,
whenever the theme argument is empty. -/
theorem cli_validation_aborts (scopify : Bool) (args : List String)
    (readFile : String → Except String String) (service : Query → Except HErr Response)
    (hshape : (scopify = false ∧ args.length = 3) ∨ (scopify = true ∧ args.length = 2)) :
    (hasPrefixStr (args.getD 0 "") "http://" = false →
      hasPrefixStr (args.getD 0 "") "https://" = false →
      cliMain scopify args readFile service =
        .fatal "expected server to have http:// or https:// prefix") ∧
    (scopify = false →
      args.getD 1 "" = "" →
      cliMain scopify args readFile service =
          .fatal "expected server to have http:// or https:// prefix" ∨
        cliMain scopify args readFile service =
          .fatal "theme argument is required (e.x. 'InspiredGitHub')") ∧
    (scopify = false →
      (hasPrefixStr (args.getD 0 "") "http://" = true ∨
        hasPrefixStr (args.getD 0 "") "https://" = true) →
      args.getD 1 "" = "" →
      cliMain scopify args readFile service =
        .fatal "theme argument is required (e.x. 'InspiredGitHub')") ∧
    (∀ msg, CliOutcome.exitCode (.fatal msg) ≠ 0) := by
  have hg : ((!scopify && args.length != 3) || (scopify && args.length != 2)) = false := by
    cases scopify <;> simp_all
  refine ⟨fun hp1 hp2 => ?_, fun hsc hth => ?_, fun hsc hp hth => ?_,
    fun _ => Nat.one_ne_zero⟩
  · rw [cliMain, if_neg (by rw [hg]; exact Bool.false_ne_true),
      if_pos (by simp only [hp1, hp2]; rfl)]
  · by_cases hp : (hasPrefixStr (args.getD 0 "") "http://" ||
        hasPrefixStr (args.getD 0 "") "https://") = true
    · right
      rw [cliMain, if_neg (by rw [hg]; exact Bool.false_ne_true),
        if_neg (by simp only [hp, Bool.not_true]; exact Bool.false_ne_true),
        readQuery, if_pos hsc, if_pos hth]
    · left
      rw [Bool.not_eq_true] at hp
      rw [cliMain, if_neg (by rw [hg]; exact Bool.false_ne_true),
        if_pos (by simp only [hp]; rfl)]
  · rw [cliMain, if_neg (by rw [hg]; exact Bool.false_ne_true),
      if_neg (by rcases hp with hp | hp <;> simp only [hp, Bool.true_or, Bool.or_true,
        Bool.not_true] <;> exact Bool.false_ne_true),
      readQuery, if_pos hsc, if_pos hth]

/-- Witness for C8: `gosyntect ftp://h t f` (highlight mode, three
arguments) aborts with the server-prefix fatal error; `gosyntect http://h
'' f` aborts with the theme fatal error. -/
theorem cli_validation_aborts_witness :
    ((false = false ∧ (["ftp://h", "t", "f"] : List String).length = 3) ∨
      (false = true ∧ (["ftp://h", "t", "f"] : List String).length = 2)) ∧
    cliMain false ["ftp://h", "t", "f"] (fun _ => .ok "")
        (fun _ => .error ⟨.panicErr, ""⟩) =
      .fatal "expected server to have http:// or https:// prefix" ∧
    cliMain false ["http://h", "", "f"] (fun _ => .ok "")
        (fun _ => .error ⟨.panicErr, ""⟩) =
      .fatal "theme argument is required (e.x. 'InspiredGitHub')" :=
  ⟨Or.inl ⟨rfl, rfl⟩,
    (cli_validation_aborts false ["ftp://h", "t", "f"] (fun _ => .ok "")
        (fun _ => .error ⟨.panicErr, ""⟩) (Or.inl ⟨rfl, rfl⟩)).1 (by decide) (by decide),
    (cli_validation_aborts false ["http://h", "", "f"] (fun _ => .ok "")
        (fun _ => .error ⟨.panicErr, ""⟩) (Or.inl ⟨rfl, rfl⟩)).2.2.1 rfl
      (Or.inl (by decide)) rfl⟩

/-- Counterexample for C9: the region `{offset 2, length -1}` over the code
`"// x"` satisfies the claimed precondition (0 ≤ offset and offset+length
within the byte length) yet the unguarded slice still panics, because the
precondition omits 0 ≤ length. -/
theorem slice_precondition_counterexample :
    (0 ≤ (2 : Int) ∧ (2 : Int) + (-1) ≤ (("// x".data.length : Int))) ∧
    renderRegion "// x" (fun _ => none) ⟨2, -1, []⟩ = none := by
  decide

/-- Claim C9 (amended): the CLI's scopify rendering accesses the submitted
code at `[offset, offset+length)` unguarded; the access is safe (does not
panic) exactly when 0 ≤ offset, 0 ≤ length, and offset+length does not
exceed the byte length of the submitted code. -/
theorem render_slice_safety (code : String) (m : Int → Option String)
    (reg : ScopifiedRegion) :
    (renderRegion code m reg).isSome = true ↔
      0 ≤ reg.Offset ∧ 0 ≤ reg.Length ∧
        reg.Offset + reg.Length ≤ (code.data.length : Int) := by
  rw [renderRegion, goSlice]
  by_cases h : 0 ≤ reg.Offset ∧ reg.Offset ≤ reg.Offset + reg.Length ∧
      reg.Offset + reg.Length ≤ (code.data.length : Int)
  · rw [if_pos h]
    simp only [Option.isSome_some, true_iff]
    exact ⟨h.1, by omega, h.2.2⟩
  · rw [if_neg h]
    constructor
    · intro hf
      exact absurd hf (by simp)
    · intro hq
      exact absurd ⟨hq.1, by omega, hq.2.2⟩ h

/-- Claim C10: the CLI chooses its output branch by whether the response's
`Data` field is non-empty, not by the `-scopify` flag: in highlight mode,
when the service's response has empty `Data`, the region-listing branch
runs, and the (empty) `Data` value is never among the printed lines. -/
theorem cli_branch_on_empty_data (server theme file code : String)
    (readFile : String → Except String String) (service : Query → Except HErr Response)
    (resp : Response)
    (hserver : (hasPrefixStr server "http://" || hasPrefixStr server "https://") = true)
    (htheme : theme ≠ "")
    (hread : readFile file = .ok code)
    (hsvc : service { Extension := "", Filepath := filepathBase file, Theme := theme,
                      Scopify := false, Code := code } = .ok resp)
    (hdata : resp.Data = "") :
    (cliMain false [server, theme, file] readFile service =
      match renderRegions code resp.ScopifiedScopeNames resp.ScopifiedRegions with
      | some lines => .output lines
      | none => .panicked) ∧
    (∀ lines, cliMain false [server, theme, file] readFile service = .output lines →
      resp.Data ∉ lines) := by
  have hmain : cliMain false [server, theme, file] readFile service =
      match renderRegions code resp.ScopifiedScopeNames resp.ScopifiedRegions with
      | some lines => .output lines
      | none => .panicked := by
    simp [cliMain, readQuery, renderOutput, hread, hsvc, hdata, hserver, htheme]
  refine ⟨hmain, fun lines hl => ?_⟩
  rw [hmain] at hl
  cases hrr : renderRegions code resp.ScopifiedScopeNames resp.ScopifiedRegions with
  | none => rw [hrr] at hl; exact absurd hl (by simp)
  | some ls =>
      rw [hrr] at hl
      have hls := CliOutcome.output.inj hl
      rw [hdata, ← hls]
      exact renderRegions_no_empty_line code resp.ScopifiedScopeNames resp.ScopifiedRegions
        ls hrr

/-- Witness for C10: a highlight-mode invocation whose service reply has
empty `Data` prints the region listing and no HTML line. -/
theorem cli_branch_on_empty_data_witness :
    cliMain false ["http://s", "t", "f"] (fun _ => .ok "// x")
        (fun _ => .ok (toSuccessResponse exampleWire)) = .output ["\"// \" - string"] ∧
    (toSuccessResponse exampleWire).Data ∉ (["\"// \" - string"] : List String) := by
  have h := cli_branch_on_empty_data "http://s" "t" "f" "// x"
    (fun _ => .ok "// x") (fun _ => .ok (toSuccessResponse exampleWire))
    (toSuccessResponse exampleWire) (by decide) (by decide) rfl rfl rfl
  exact ⟨h.1.trans (by decide), h.2 _ (h.1.trans (by decide))⟩

end Gosyntect
